import Mathlib

/-!
# Watermark service: shallow embedding of the Go sources

Embedded sources:
* `pkg/watermarkService.go`  : the workflow service (`Get`, `Status`, `Watermark`, `AddDocument`)
* `pkg/transport/http.go`    : the five HTTP request decoders, `encodeResponse`, `encodeError`
* `main.go`                  : the body of the signal-watcher actor

Go values of interface type `error` are modelled by `GoError`; a nil error is `none`.
Calls on interfaces whose implementation lives outside the repository
(`http.ResponseWriter`, `log.Logger`) are recorded as traces.
-/

/-! ## Go runtime values -/

/-- A non-nil Go `error` value: `dyn` identifies the dynamic value held by the interface
(interface comparison `==` compares it), `msg` is what the method `Error()` returns. -/
structure GoError where
  dyn : Nat
  msg : String
deriving DecidableEq, Repr

/-- Method `Error()` of the interface `error`. -/
def GoError.Error (e : GoError) : String := e.msg

/-! ## Package `net/http`: status constants -/

namespace http

def StatusOK : Nat := 200
def StatusBadRequest : Nat := 400
def StatusNotFound : Nat := 404
def StatusInternalServerError : Nat := 500

end http

/-! ## Package `internal` (not among the sources) -/

namespace internal

/-- Modelled from the spec: the type `internal.Document` is declared outside the available
sources; the four string attributes are the ones the composite literal in `Get` assigns and
the data model lists (content, title, author, topic). -/
structure Document where
  Content : String
  Title : String
  Author : String
  Topic : String
deriving DecidableEq, Repr

/-- Modelled from the spec: the type `internal.Filter` is declared outside the available
sources; the glossary describes it as a key/value predicate used to select documents. -/
structure Filter where
  Key : String
  Value : String
deriving DecidableEq, Repr

/-- Modelled from the spec: the enumeration `internal.Status` is declared outside the available
sources (only the constant `internal.InProgress` is used by them); the data model gives the
ticket lifecycle `Created -> InProgress -> Started -> Finished`. -/
inductive Status where
  | Created
  | InProgress
  | Started
  | Finished
deriving DecidableEq, Repr

/-- Position of a status in the lifecycle order `Created -> InProgress -> Started -> Finished`. -/
def Status.rank : Status → Nat
  | Created => 0
  | InProgress => 1
  | Started => 2
  | Finished => 3

/-- The state a freshly submitted ticket is in; the data model writes it `Created`/`InProgress`. -/
def Status.isInitial : Status → Bool
  | Created => true
  | InProgress => true
  | Started => false
  | Finished => false

end internal

/-! ## `pkg/watermarkService.go` -/

/-- The Go type `watermarkService struct{}`: the receiver carries no field, and the four
methods below read and write no package-level variable, so a call leaves nothing behind for
a later call: calling them in sequence is applying them one after the other. -/
structure watermarkService where
deriving DecidableEq, Repr

/-- The constructor `NewService` returns `&watermarkService{}`. -/
def NewService : watermarkService := {}

/-- The method `(*watermarkService).Get`: the filters are ignored and one fixed document is
returned with a nil error. -/
def watermarkService.Get (_w : watermarkService) (_filters : List internal.Filter) :
    List internal.Document × Option GoError :=
  let doc : internal.Document :=
    { Content := "book"
      Title := "Harry Potter and the Half-Blood Prince"
      Author := "J.K. Rowling"
      Topic := "Fiction and Magic" }
  ([doc], none)

/-- The method `(*watermarkService).Status`: returns `internal.InProgress, nil`. -/
def watermarkService.Status (_w : watermarkService) (_ticketID : String) :
    internal.Status × Option GoError :=
  (internal.Status.InProgress, none)

/-- The method `(*watermarkService).Watermark`: returns `http.StatusOK, nil`. -/
def watermarkService.Watermark (_w : watermarkService) (_ticketID _mark : String) :
    Nat × Option GoError :=
  (http.StatusOK, none)

/-- The method `(*watermarkService).AddDocument`. The call `shortuuid.New()` draws a random
identifier from outside the program; the drawn value is the argument `newUUID`. The document
pointer `doc` may be nil (`none`). -/
def watermarkService.AddDocument (_w : watermarkService) (newUUID : String)
    (_doc : Option internal.Document) : String × Option GoError :=
  let newTicketID := newUUID
  (newTicketID, none)

/-! ## Package `github.com/go-kit/log`: the package-level `logger` -/

/-- The package-level variable `logger` is observed through the calls made on it: one entry
per call of `logger.Log`, holding the key/value arguments of that call. -/
abbrev Logger := List (List String)

/-- The call `logger.Log(keyvals...)`. -/
def Logger.Log (logger : Logger) (keyvals : List String) : Logger :=
  logger ++ [keyvals]

/-! ## Package `encoding/json` -/

/-- A JSON document as `json.Encoder.Encode` puts it on the wire. -/
inductive Json where
  | null
  | bool (b : Bool)
  | num (n : Int)
  | str (s : String)
  | arr (items : List Json)
  | obj (members : List (String × Json))

/-- The call `json.NewDecoder(r.Body).Decode(&req)` for a target of type `α`: reading the
unread body yields the decoded value or an error, together with what is left unread. The
decoding itself belongs to the standard library and is a parameter of the embedding. -/
abbrev JsonDecode (α : Type) := String → Except GoError α × String

/-- The marshalling of a typed response by `json.Encoder.Encode`; it belongs to the standard
library and is a parameter of the embedding. It fails for values JSON cannot represent. -/
abbrev JsonMarshal (α : Type) := α → Except GoError Json

/-! ## Package `endpoints` (not among the sources): request types -/

namespace endpoints

/-- Modelled from the spec: the type `endpoints.ServiceStatusRequest` is declared outside the
available sources; `/healthz` takes an empty or `{}` request. -/
structure ServiceStatusRequest where
deriving DecidableEq, Repr

/-- Modelled from the spec: the type `endpoints.StatusRequest` is declared outside the
available sources; `/status` takes a `ticketID` string. -/
structure StatusRequest where
  TicketID : String
deriving DecidableEq, Repr

/-- Modelled from the spec: the type `endpoints.AddDocumentRequest` is declared outside the
available sources; `/addDocument` takes `content`, `title`, `author`, `topic`. -/
structure AddDocumentRequest where
  Content : String
  Title : String
  Author : String
  Topic : String
deriving DecidableEq, Repr

/-- Modelled from the spec: the type `endpoints.GetRequest` is declared outside the available
sources; `/get` takes `filters`. -/
structure GetRequest where
  Filters : List internal.Filter
deriving DecidableEq, Repr

/-- Modelled from the spec: the type `endpoints.WatermarkRequest` is declared outside the
available sources; `/watermark` takes `ticketID` and `mark`. -/
structure WatermarkRequest where
  TicketID : String
  Mark : String
deriving DecidableEq, Repr

/-- The Go zero value of each request type, what `var req T` declares: empty strings, nil
slice. -/
def ServiceStatusRequest.zero : ServiceStatusRequest := {}
def StatusRequest.zero : StatusRequest := { TicketID := "" }
def AddDocumentRequest.zero : AddDocumentRequest :=
  { Content := "", Title := "", Author := "", Topic := "" }
def GetRequest.zero : GetRequest := { Filters := [] }
def WatermarkRequest.zero : WatermarkRequest := { TicketID := "", Mark := "" }

end endpoints

/-- A non-nil `interface{}` value returned by a request decoder: the request of one of the
five routes. The nil interface is `none`. -/
inductive DecodedRequest where
  | serviceStatus (req : endpoints.ServiceStatusRequest)
  | status (req : endpoints.StatusRequest)
  | addDocument (req : endpoints.AddDocumentRequest)
  | get (req : endpoints.GetRequest)
  | watermark (req : endpoints.WatermarkRequest)
deriving DecidableEq, Repr

namespace http

/-- The part of `*http.Request` the decoders use: the field `ContentLength` (an `int64`, -1
when unknown) and the bytes of `Body` that have not been read yet. -/
structure Request where
  ContentLength : Int
  Body : String
deriving DecidableEq, Repr

end http

/-- What a call of a request decoder leaves behind: the returned pair `(interface{}, error)`,
the request with its body as far as it was read, and the package-level logger. -/
structure DecodeOutcome where
  request : Option DecodedRequest
  err : Option GoError
  r : http.Request
  logger : Logger

/-! ## `pkg/transport/http.go`: decoding HTTP requests -/

/-- The function `decodeHTTPServiceStatusRequest`. -/
def decodeHTTPServiceStatusRequest (dec : JsonDecode endpoints.ServiceStatusRequest)
    (logger : Logger) (r : http.Request) : DecodeOutcome :=
  let req := endpoints.ServiceStatusRequest.zero
  if r.ContentLength == 0 then
    { request := some (.serviceStatus req), err := none, r := r,
      logger := logger.Log ["Get request with no body"] }
  else
    match dec r.Body with
    | (.error err, rest) =>
      { request := none, err := some err, r := { r with Body := rest }, logger := logger }
    | (.ok req, rest) =>
      { request := some (.serviceStatus req), err := none, r := { r with Body := rest },
        logger := logger }

/-- The function `decodeHTTPStatusRequest`. -/
def decodeHTTPStatusRequest (dec : JsonDecode endpoints.StatusRequest)
    (logger : Logger) (r : http.Request) : DecodeOutcome :=
  let req := endpoints.StatusRequest.zero
  if r.ContentLength == 0 then
    { request := some (.status req), err := none, r := r,
      logger := logger.Log ["Get request with no body"] }
  else
    match dec r.Body with
    | (.error err, rest) =>
      { request := none, err := some err, r := { r with Body := rest }, logger := logger }
    | (.ok req, rest) =>
      { request := some (.status req), err := none, r := { r with Body := rest },
        logger := logger }

/-- The function `decodeHTTPAddDocumentRequest`. -/
def decodeHTTPAddDocumentRequest (dec : JsonDecode endpoints.AddDocumentRequest)
    (logger : Logger) (r : http.Request) : DecodeOutcome :=
  let req := endpoints.AddDocumentRequest.zero
  if r.ContentLength == 0 then
    { request := some (.addDocument req), err := none, r := r,
      logger := logger.Log ["Get request with no body"] }
  else
    match dec r.Body with
    | (.error err, rest) =>
      { request := none, err := some err, r := { r with Body := rest }, logger := logger }
    | (.ok req, rest) =>
      { request := some (.addDocument req), err := none, r := { r with Body := rest },
        logger := logger }

/-- The function `decodeHTTPGetRequest`. -/
def decodeHTTPGetRequest (dec : JsonDecode endpoints.GetRequest)
    (logger : Logger) (r : http.Request) : DecodeOutcome :=
  let req := endpoints.GetRequest.zero
  if r.ContentLength == 0 then
    { request := some (.get req), err := none, r := r,
      logger := logger.Log ["Get request with no body"] }
  else
    match dec r.Body with
    | (.error err, rest) =>
      { request := none, err := some err, r := { r with Body := rest }, logger := logger }
    | (.ok req, rest) =>
      { request := some (.get req), err := none, r := { r with Body := rest },
        logger := logger }

/-- The function `decodeHTTPWatermarkRequest`. -/
def decodeHTTPWatermarkRequest (dec : JsonDecode endpoints.WatermarkRequest)
    (logger : Logger) (r : http.Request) : DecodeOutcome :=
  let req := endpoints.WatermarkRequest.zero
  if r.ContentLength == 0 then
    { request := some (.watermark req), err := none, r := r,
      logger := logger.Log ["Get request with no body"] }
  else
    match dec r.Body with
    | (.error err, rest) =>
      { request := none, err := some err, r := { r with Body := rest }, logger := logger }
    | (.ok req, rest) =>
      { request := some (.watermark req), err := none, r := { r with Body := rest },
        logger := logger }

/-! ## Package `net/http`: the interface `http.ResponseWriter` -/

/-- One method call made on an `http.ResponseWriter`. -/
inductive WriterCall where
  | headerSet (key value : String)
  | writeHeader (statusCode : Nat)
  | write (doc : Json)

namespace http

/-- An `http.ResponseWriter`, observed through the calls made on it, oldest first. Its
implementation is outside the repository; `writeErr` is the error its method `Write`
reports (nil, `none`, on a healthy connection). -/
structure ResponseWriter where
  calls : List WriterCall
  writeErr : Option GoError

/-- The call `w.Header().Set(key, value)`. -/
def ResponseWriter.HeaderSet (w : ResponseWriter) (key value : String) : ResponseWriter :=
  { w with calls := w.calls ++ [.headerSet key value] }

/-- The call `w.WriteHeader(statusCode)`. -/
def ResponseWriter.WriteHeader (w : ResponseWriter) (statusCode : Nat) : ResponseWriter :=
  { w with calls := w.calls ++ [.writeHeader statusCode] }

/-- The call `w.Write(b)` where `b` is the encoding of `doc`; returns the error of the call. -/
def ResponseWriter.Write (w : ResponseWriter) (doc : Json) : ResponseWriter × Option GoError :=
  ({ w with calls := w.calls ++ [.write doc] }, w.writeErr)

end http

namespace json

/-- The call `json.NewEncoder(w).Encode(v)`, given the outcome of marshalling `v`: a
marshalling error is returned and nothing is written, otherwise the document is written to
`w` and the error of that write is returned. -/
def Encode (w : http.ResponseWriter) (marshalled : Except GoError Json) :
    http.ResponseWriter × Option GoError :=
  match marshalled with
  | .error err => (w, some err)
  | .ok doc => w.Write doc

end json

/-! ## Package `internal/util` (not among the sources) -/

namespace util

/-- The two exported error variables of package `util` that `encodeError` compares against.
The package is not among the sources, so their values are parameters of the embedding. -/
structure Errors where
  ErrUnknown : GoError
  ErrInvalidArgument : GoError

end util

/-! ## `pkg/transport/http.go`: encoding HTTP responses -/

/-- The value of the parameter `response interface{}` of `encodeResponse`: the nil interface,
a dynamic value that implements `error`, or any other dynamic value (a typed response). -/
inductive Response (α : Type) where
  | nil
  | error (e : GoError)
  | value (v : α)

/-- The function `encodeError`: sets the content type, writes the status selected by the
`switch err`, then encodes the map with the single key `"error"`; the result of that last
`Encode` is discarded. -/
def encodeError (u : util.Errors) (err : GoError) (w : http.ResponseWriter) :
    http.ResponseWriter :=
  let w := w.HeaderSet "Content-Type" "application/json; charset=utf-8"
  let w :=
    if err = u.ErrUnknown then w.WriteHeader http.StatusNotFound
    else if err = u.ErrInvalidArgument then w.WriteHeader http.StatusBadRequest
    else w.WriteHeader http.StatusInternalServerError
  (json.Encode w (.ok (Json.obj [("error", Json.str err.Error)]))).1

/-- The function `encodeResponse`: the type assertion `response.(error)` succeeds exactly on
`Response.error`; every other response goes to `json.NewEncoder(w).Encode(response)`, whose
result is returned (the nil interface marshals to `null`). -/
def encodeResponse {α : Type} (u : util.Errors) (marshal : JsonMarshal α)
    (w : http.ResponseWriter) (response : Response α) : http.ResponseWriter × Option GoError :=
  match response with
  | .error e => (encodeError u e w, none)
  | .nil => json.Encode w (.ok Json.null)
  | .value v => json.Encode w (marshal v)

/-! ## `main.go`: the signal-watcher actor -/

namespace syscall

/-- The two signals the actor registers with `signal.Notify`. -/
inductive Signal where
  | SIGINT
  | SIGTERM
deriving DecidableEq, Repr

/-- The method `String()` of `syscall.Signal` for these two signals (standard library). -/
def Signal.String : Signal → String
  | SIGINT => "interrupt"
  | SIGTERM => "terminated"

end syscall

namespace fmt

/-- The call `fmt.Errorf(format, args...)`: a newly allocated error value (identity `fresh`)
carrying the formatted message. -/
def Errorf (fresh : Nat) (formatted : String) : GoError :=
  { dyn := fresh, msg := formatted }

end fmt

namespace main

/-- The case of the `select` statement that ends the wait of the signal watcher. -/
inductive SelectCase where
  | signal (sig : syscall.Signal)
  | cancelInterrupt
deriving DecidableEq, Repr

/-- The execute function of the third actor added to the group in `main`: it blocks in a
`select` over the signal channel `c` and the channel `cancelInterrupt`; `fired` is the case
that ends the wait. -/
def signalWatcher (fresh : Nat) (fired : SelectCase) : Option GoError :=
  match fired with
  | .signal sig => some (fmt.Errorf fresh ("received signal " ++ sig.String))
  | .cancelInterrupt => none

end main

/-! ## Theorems -/

/-- C1: for every error value `err` passed to `encodeError`, with the two sentinel errors of
package `util` being distinct values, the calls made on the response writer are: set the
content type, write one status code, write the error envelope; the status code is 404 when
`err` is `util.ErrUnknown`, 400 when `err` is `util.ErrInvalidArgument`, and 500 for every
other error. -/
theorem encodeError_status_by_error_kind (u : util.Errors)
    (hdistinct : u.ErrUnknown ≠ u.ErrInvalidArgument) (err : GoError)
    (w : http.ResponseWriter) :
    (err = u.ErrUnknown →
      (encodeError u err w).calls = w.calls ++
        [.headerSet "Content-Type" "application/json; charset=utf-8",
         .writeHeader 404,
         .write (Json.obj [("error", Json.str err.msg)])]) ∧
    (err = u.ErrInvalidArgument →
      (encodeError u err w).calls = w.calls ++
        [.headerSet "Content-Type" "application/json; charset=utf-8",
         .writeHeader 400,
         .write (Json.obj [("error", Json.str err.msg)])]) ∧
    (err ≠ u.ErrUnknown → err ≠ u.ErrInvalidArgument →
      (encodeError u err w).calls = w.calls ++
        [.headerSet "Content-Type" "application/json; charset=utf-8",
         .writeHeader 500,
         .write (Json.obj [("error", Json.str err.msg)])]) := by
  refine ⟨?_, ?_, ?_⟩
  · intro h
    simp [encodeError, h, json.Encode, http.ResponseWriter.Write, http.ResponseWriter.WriteHeader,
      http.ResponseWriter.HeaderSet, http.StatusNotFound, GoError.Error]
  · intro h
    have hne : u.ErrInvalidArgument ≠ u.ErrUnknown := fun h2 => hdistinct h2.symm
    simp [encodeError, h, hne, json.Encode, http.ResponseWriter.Write,
      http.ResponseWriter.WriteHeader, http.ResponseWriter.HeaderSet, http.StatusBadRequest,
      GoError.Error]
  · intro h1 h2
    simp [encodeError, h1, h2, json.Encode, http.ResponseWriter.Write,
      http.ResponseWriter.WriteHeader, http.ResponseWriter.HeaderSet,
      http.StatusInternalServerError, GoError.Error]

/-- Witness of C1: with sentinels of identities 1 and 2 and an empty writer, the hypothesis
holds and `encodeError` on the second sentinel writes status 400. -/
theorem encodeError_status_by_error_kind_witness :
    (GoError.mk 1 "unknown" ≠ GoError.mk 2 "invalid") ∧
    (encodeError ⟨GoError.mk 1 "unknown", GoError.mk 2 "invalid"⟩ (GoError.mk 2 "invalid")
        ⟨[], none⟩).calls =
      [] ++ [.headerSet "Content-Type" "application/json; charset=utf-8",
       .writeHeader 400,
       .write (Json.obj [("error", Json.str "invalid")])] :=
  ⟨fun h => absurd (congrArg GoError.dyn h) (by decide),
   (encodeError_status_by_error_kind ⟨GoError.mk 1 "unknown", GoError.mk 2 "invalid"⟩
      (fun h => absurd (congrArg GoError.dyn h) (by decide))
      (GoError.mk 2 "invalid") ⟨[], none⟩).2.1 rfl⟩

/-- C2 (evaluation of the code): on a fresh service, on which `AddDocument` was never called,
`Status` of the ticket `"does-not-exist"` returns `InProgress` with a nil error, and
`Watermark` of that ticket returns 200 with a nil error for every mark; neither fails with
the Unknown error. -/
theorem status_watermark_nonexistent_ticket_succeed :
    NewService.Status "does-not-exist" = (internal.Status.InProgress, none) ∧
    ∀ mark : String, NewService.Watermark "does-not-exist" mark = (200, none) :=
  ⟨rfl, fun _ => rfl⟩

/-- C3 (evaluation of the code): for the ticket returned by `AddDocument`, the call
`Watermark(X, "mark1")` succeeds and the second call `Watermark(X, "mark2")` also returns 200
with a nil error; it does not fail with the InvalidArgument error. -/
theorem second_watermark_succeeds :
    (NewService.AddDocument "X" (some ⟨"c", "T", "A", "t"⟩)) = ("X", none) ∧
    NewService.Watermark (NewService.AddDocument "X" (some ⟨"c", "T", "A", "t"⟩)).1 "mark1"
      = (200, none) ∧
    NewService.Watermark (NewService.AddDocument "X" (some ⟨"c", "T", "A", "t"⟩)).1 "mark2"
      = (200, none) :=
  ⟨rfl, rfl, rfl⟩

/-- C4: for every document `d` (every valid one included) and every identifier drawn by
`shortuuid.New()`, if `AddDocument(ctx, d)` returns `ticketID` with no error, then
`Status(ctx, ticketID)` returns no error and the state `InProgress`, which is the initial
state `Created`/`InProgress` of the ticket state machine. -/
theorem status_after_addDocument_is_initial (w : watermarkService) (newUUID : String)
    (d : Option internal.Document) (ticketID : String)
    (hadd : w.AddDocument newUUID d = (ticketID, none)) :
    w.Status ticketID = (internal.Status.InProgress, none) ∧
    (w.Status ticketID).1.isInitial = true ∧
    ticketID = newUUID := by
  refine ⟨rfl, rfl, ?_⟩
  have h := congrArg Prod.fst hadd
  exact h.symm

/-- Witness of C4: the document with title `T` and author `A`, identifier `X`. -/
theorem status_after_addDocument_is_initial_witness :
    NewService.AddDocument "X" (some ⟨"c", "T", "A", "t"⟩) = ("X", none) ∧
    NewService.Status "X" = (internal.Status.InProgress, none) ∧
    (NewService.Status "X").1.isInitial = true ∧
    "X" = "X" :=
  ⟨rfl, status_after_addDocument_is_initial NewService "X" (some ⟨"c", "T", "A", "t"⟩) "X" rfl⟩

/-- C5 (evaluation of the code): after `AddDocument` succeeds on the document with content
`c`, title `T`, author `A`, topic `t`, the call `Get` with the matching filter `title = T`
returns, with no error, a list that holds only the fixed document of `Get` and does not
contain the submitted document. -/
theorem get_misses_added_document :
    (NewService.AddDocument "X" (some ⟨"c", "T", "A", "t"⟩)).2 = none ∧
    (NewService.Get [⟨"title", "T"⟩]).2 = none ∧
    (NewService.Get [⟨"title", "T"⟩]).1 =
      [⟨"book", "Harry Potter and the Half-Blood Prince", "J.K. Rowling",
        "Fiction and Magic"⟩] ∧
    (⟨"c", "T", "A", "t"⟩ : internal.Document) ∉ (NewService.Get [⟨"title", "T"⟩]).1 := by
  refine ⟨rfl, rfl, rfl, ?_⟩
  simp [watermarkService.Get]

/-- C6 (evaluation of the code): for the ticket returned by `AddDocument`, `Status` returns
`InProgress` before the call `Watermark(X, "mark1")`, that call succeeds, and `Status` returns
`InProgress` again afterwards: the state after is not strictly later in the order
`Created -> InProgress -> Started -> Finished` than the state before. -/
theorem status_does_not_progress_after_watermark :
    (NewService.AddDocument "X" (some ⟨"c", "T", "A", "t"⟩)) = ("X", none) ∧
    (NewService.Status "X").1.isInitial = true ∧
    NewService.Watermark "X" "mark1" = (200, none) ∧
    NewService.Status "X" = (internal.Status.InProgress, none) ∧
    ¬ ((NewService.Status "X").1.rank < (NewService.Status "X").1.rank) :=
  ⟨rfl, rfl, rfl, rfl, Nat.lt_irrefl _⟩

/-- C7: for each of the five HTTP request decoders and every request whose `ContentLength` is
0, whatever the JSON decoder would do, the decoder returns the zero value of the request type
of its route and a nil error, leaves the request body unread (the request is unchanged), and
logs one line. -/
theorem decoders_zero_value_on_empty_body
    (decServiceStatus : JsonDecode endpoints.ServiceStatusRequest)
    (decStatus : JsonDecode endpoints.StatusRequest)
    (decAddDocument : JsonDecode endpoints.AddDocumentRequest)
    (decGet : JsonDecode endpoints.GetRequest)
    (decWatermark : JsonDecode endpoints.WatermarkRequest)
    (logger : Logger) (r : http.Request) (hlen : r.ContentLength = 0) :
    decodeHTTPServiceStatusRequest decServiceStatus logger r =
      { request := some (.serviceStatus {}), err := none, r := r,
        logger := logger ++ [["Get request with no body"]] } ∧
    decodeHTTPStatusRequest decStatus logger r =
      { request := some (.status { TicketID := "" }), err := none, r := r,
        logger := logger ++ [["Get request with no body"]] } ∧
    decodeHTTPAddDocumentRequest decAddDocument logger r =
      { request := some (.addDocument { Content := "", Title := "", Author := "", Topic := "" }),
        err := none, r := r, logger := logger ++ [["Get request with no body"]] } ∧
    decodeHTTPGetRequest decGet logger r =
      { request := some (.get { Filters := [] }), err := none, r := r,
        logger := logger ++ [["Get request with no body"]] } ∧
    decodeHTTPWatermarkRequest decWatermark logger r =
      { request := some (.watermark { TicketID := "", Mark := "" }), err := none, r := r,
        logger := logger ++ [["Get request with no body"]] } := by
  refine ⟨?_, ?_, ?_, ?_, ?_⟩
  · simp [decodeHTTPServiceStatusRequest, hlen, Logger.Log, endpoints.ServiceStatusRequest.zero]
  · simp [decodeHTTPStatusRequest, hlen, Logger.Log, endpoints.StatusRequest.zero]
  · simp [decodeHTTPAddDocumentRequest, hlen, Logger.Log, endpoints.AddDocumentRequest.zero]
  · simp [decodeHTTPGetRequest, hlen, Logger.Log, endpoints.GetRequest.zero]
  · simp [decodeHTTPWatermarkRequest, hlen, Logger.Log, endpoints.WatermarkRequest.zero]

/-- Witness of C7: a request with `ContentLength` 0 whose body nevertheless holds bytes, and
JSON decoders that would fail on any input; the `/status` decoder returns the zero request,
a nil error and the body untouched. -/
theorem decoders_zero_value_on_empty_body_witness :
    (http.Request.mk 0 "junk").ContentLength = 0 ∧
    decodeHTTPStatusRequest (fun b => (.error ⟨7, "bad"⟩, b)) [] ⟨0, "junk"⟩ =
      { request := some (.status { TicketID := "" }), err := none, r := ⟨0, "junk"⟩,
        logger := [] ++ [["Get request with no body"]] } :=
  ⟨rfl,
   (decoders_zero_value_on_empty_body (fun b => (.error ⟨7, "bad"⟩, b))
      (fun b => (.error ⟨7, "bad"⟩, b)) (fun b => (.error ⟨7, "bad"⟩, b))
      (fun b => (.error ⟨7, "bad"⟩, b)) (fun b => (.error ⟨7, "bad"⟩, b))
      [] ⟨0, "junk"⟩ rfl).2.1⟩

/-- C8: the signal-watcher actor returns a non-nil error whose message is
`received signal <sig>` when its wait is ended by the signal `sig` (`received signal interrupt`
for SIGINT, `received signal terminated` for SIGTERM), and returns nil when its wait is ended
by the closing of the channel `cancelInterrupt`. -/
theorem signalWatcher_result (fresh : Nat) :
    (∀ sig : syscall.Signal,
      ∃ err : GoError, main.signalWatcher fresh (.signal sig) = some err ∧
        err.Error = "received signal " ++ sig.String) ∧
    (main.signalWatcher fresh (.signal .SIGINT)).map GoError.Error
      = some "received signal interrupt" ∧
    (main.signalWatcher fresh (.signal .SIGTERM)).map GoError.Error
      = some "received signal terminated" ∧
    main.signalWatcher fresh .cancelInterrupt = none := by
  refine ⟨fun sig => ⟨_, rfl, rfl⟩, ?_, ?_, rfl⟩
  · simp [main.signalWatcher, fmt.Errorf, GoError.Error, syscall.Signal.String]
  · simp [main.signalWatcher, fmt.Errorf, GoError.Error, syscall.Signal.String]

/-- C10: for every response value passed to `encodeResponse`: if it is a (non-nil) error
value `e`, `encodeResponse` returns nil and the writer is the one `encodeError` leaves, which
received after the content type and the status code the JSON object whose only key `error`
holds the message of `e`; otherwise (a typed response or the nil interface) the outcome is
that of `json.NewEncoder(w).Encode(response)`: a marshalling error is returned with nothing
written, else the document is written and the error of the write is returned. -/
theorem encodeResponse_branches {α : Type} (u : util.Errors) (marshal : JsonMarshal α)
    (w : http.ResponseWriter) :
    (∀ e : GoError,
      encodeResponse u marshal w (.error e) = (encodeError u e w, none) ∧
      ∃ code : Nat,
        (code = if e = u.ErrUnknown then 404 else if e = u.ErrInvalidArgument then 400
          else 500) ∧
        (encodeError u e w).calls = w.calls ++
          [.headerSet "Content-Type" "application/json; charset=utf-8",
           .writeHeader code,
           .write (Json.obj [("error", Json.str e.Error)])]) ∧
    (∀ v : α, encodeResponse u marshal w (.value v) = json.Encode w (marshal v)) ∧
    (∀ v : α,
      encodeResponse u marshal w (.value v) =
        match marshal v with
        | .error err => (w, some err)
        | .ok doc => (⟨w.calls ++ [.write doc], w.writeErr⟩, w.writeErr)) ∧
    encodeResponse u marshal w .nil = (⟨w.calls ++ [.write Json.null], w.writeErr⟩, w.writeErr) := by
  refine ⟨fun e => ⟨rfl, _, rfl, ?_⟩, fun _ => rfl, fun v => ?_, rfl⟩
  · by_cases h1 : e = u.ErrUnknown
    · simp [encodeError, h1, json.Encode, http.ResponseWriter.Write,
        http.ResponseWriter.WriteHeader, http.ResponseWriter.HeaderSet, http.StatusNotFound]
    · by_cases h2 : e = u.ErrInvalidArgument
      · have h3 : ¬ u.ErrInvalidArgument = u.ErrUnknown := fun h => h1 (h2.trans h)
        simp [encodeError, h2, h3, json.Encode, http.ResponseWriter.Write,
          http.ResponseWriter.WriteHeader, http.ResponseWriter.HeaderSet,
          http.StatusBadRequest]
      · simp [encodeError, h1, h2, json.Encode, http.ResponseWriter.Write,
          http.ResponseWriter.WriteHeader, http.ResponseWriter.HeaderSet,
          http.StatusInternalServerError]
  · simp only [encodeResponse, json.Encode]
    cases marshal v <;> rfl
